import Mathlib

/-!
Shallow embedding of the maneuver planning and execution core of an orbital
rendezvous-and-proximity-operations demo.  The original is TypeScript; here
numbers are modelled as elements of a linear ordered field `K` (instantiated
at `ℚ` or `ℝ` in concrete theorems), a thrown exception as `Option.none`,
and the external propagator library (`propagateYA`, `trueAnomalyAtTime`
from the excluded analytical propagation package) as explicit function
parameters threaded through every definition that the source code lets
call into that package.
-/

set_option linter.unusedVariables false
set_option linter.unusedSectionVars false
set_option linter.unreachableTactic false
set_option linter.unusedTactic false

namespace Rpo

/-- three-component vector in the radial / in-track / cross-track frame;
source type `Vector3 = [number, number, number]`. -/
structure Vector3 (K : Type) where
  x : K
  y : K
  z : K
deriving DecidableEq

/-- a 3x3 matrix stored as three rows, source type
`Matrix3x3 = [Vector3, Vector3, Vector3]` (row-major, as consumed by
`multiplyMatrixVector`). -/
structure Matrix3x3 (K : Type) where
  row0 : Vector3 K
  row1 : Vector3 K
  row2 : Vector3 K
deriving DecidableEq

/-- relative state of the deputy with respect to the chief,
source type `RelativeState = { position: Vector3; velocity: Vector3 }`. -/
structure RelativeState (K : Type) where
  position : Vector3 K
  velocity : Vector3 K
deriving DecidableEq

/-- orbital elements of the chief, source type `OrbitalElements`. -/
structure OrbitalElements (K : Type) where
  eccentricity : K
  gravitationalParameter : K
  angularMomentum : K
deriving DecidableEq

variable {K : Type} [LinearOrderedField K]

instance : Zero (Vector3 K) := ⟨⟨0, 0, 0⟩⟩

instance : Add (Vector3 K) := ⟨fun a b => ⟨a.x + b.x, a.y + b.y, a.z + b.z⟩⟩

instance : SMul K (Vector3 K) := ⟨fun a v => ⟨a * v.x, a * v.y, a * v.z⟩⟩

instance : Zero (RelativeState K) := ⟨⟨0, 0⟩⟩

instance : Add (RelativeState K) :=
  ⟨fun s t => ⟨s.position + t.position, s.velocity + t.velocity⟩⟩

instance : SMul K (RelativeState K) :=
  ⟨fun a s => ⟨a • s.position, a • s.velocity⟩⟩

theorem vector3_eq_iff {a b : Vector3 K} :
    a = b ↔ a.x = b.x ∧ a.y = b.y ∧ a.z = b.z := by
  constructor
  · intro h; subst h; exact ⟨rfl, rfl, rfl⟩
  · rintro ⟨h1, h2, h3⟩; cases a; cases b; simp_all

theorem relState_eq_iff {a b : RelativeState K} :
    a = b ↔ a.position = b.position ∧ a.velocity = b.velocity := by
  constructor
  · intro h; subst h; exact ⟨rfl, rfl⟩
  · rintro ⟨h1, h2⟩; cases a; cases b; simp_all

@[simp] theorem vector3_add_def (a b : Vector3 K) :
    a + b = ⟨a.x + b.x, a.y + b.y, a.z + b.z⟩ := rfl

@[simp] theorem vector3_smul_def (a : K) (v : Vector3 K) :
    a • v = ⟨a * v.x, a * v.y, a * v.z⟩ := rfl

@[simp] theorem vector3_zero_def : (0 : Vector3 K) = ⟨0, 0, 0⟩ := rfl

@[simp] theorem relState_add_def (s t : RelativeState K) :
    s + t = ⟨s.position + t.position, s.velocity + t.velocity⟩ := rfl

@[simp] theorem relState_smul_def (a : K) (s : RelativeState K) :
    a • s = ⟨a • s.position, a • s.velocity⟩ := rfl

@[simp] theorem relState_zero_def : (0 : RelativeState K) = ⟨0, 0⟩ := rfl

/-- type of the external propagator `propagateYA(state, elements, theta0,
thetaF, deltaTime, "RIC")`; the constant frame string argument is dropped. -/
abbrev PropFn (K : Type) : Type :=
  RelativeState K → OrbitalElements K → K → K → K → RelativeState K

/-- type of the external phase function
`trueAnomalyAtTime(elements, theta0, deltaTime)`. -/
abbrev AnomalyFn (K : Type) : Type := OrbitalElements K → K → K → K

-- Named numeric constants from src/config/constants.ts.

/-- source constant `MATRIX_SINGULARITY_TOLERANCE = 1e-10` (the same value
is written inline in `invert3x3`). -/
def MATRIX_SINGULARITY_TOLERANCE : K := 1 / 10 ^ 10

/-- source constant `FMC_STATIONARY_THRESHOLD = 1e-3`. -/
def FMC_STATIONARY_THRESHOLD : K := 1 / 10 ^ 3

/-- source constant `DEFAULT_APPROACH_RATE = 0.5`. -/
def DEFAULT_APPROACH_RATE : K := 1 / 2

/-- source constant `MIN_TRANSFER_TIME = 60`. -/
def MIN_TRANSFER_TIME : K := 60

/-- source constant `MIN_WAYPOINT_DISTANCE = 10`. -/
def MIN_WAYPOINT_DISTANCE : K := 10

/-- source constant `MAX_LEG_DELTA_V = 10`. -/
def MAX_LEG_DELTA_V : K := 10

-- Matrix helpers from src/utils/maneuvers.ts.

/-- determinant expression computed inside `invert3x3` (cofactor expansion
along the first row, exactly the source arithmetic). -/
def det3x3 (m : Matrix3x3 K) : K :=
  m.row0.x * (m.row1.y * m.row2.z - m.row1.z * m.row2.y) -
    m.row0.y * (m.row1.x * m.row2.z - m.row1.z * m.row2.x) +
    m.row0.z * (m.row1.x * m.row2.y - m.row1.y * m.row2.x)

/-- source `invert3x3`: closed-form cofactor inversion; the source throws
`Error("Matrix is singular or near-singular")` when `|det| < 1e-10`,
modelled as `none`. -/
def invert3x3 (m : Matrix3x3 K) : Option (Matrix3x3 K) :=
  if |det3x3 m| < MATRIX_SINGULARITY_TOLERANCE then
    none
  else
    some
      ⟨⟨(m.row1.y * m.row2.z - m.row1.z * m.row2.y) * (1 / det3x3 m),
        (m.row0.z * m.row2.y - m.row0.y * m.row2.z) * (1 / det3x3 m),
        (m.row0.y * m.row1.z - m.row0.z * m.row1.y) * (1 / det3x3 m)⟩,
       ⟨(m.row1.z * m.row2.x - m.row1.x * m.row2.z) * (1 / det3x3 m),
        (m.row0.x * m.row2.z - m.row0.z * m.row2.x) * (1 / det3x3 m),
        (m.row0.z * m.row1.x - m.row0.x * m.row1.z) * (1 / det3x3 m)⟩,
       ⟨(m.row1.x * m.row2.y - m.row1.y * m.row2.x) * (1 / det3x3 m),
        (m.row0.y * m.row2.x - m.row0.x * m.row2.y) * (1 / det3x3 m),
        (m.row0.x * m.row1.y - m.row0.y * m.row1.x) * (1 / det3x3 m)⟩⟩

/-- source `multiplyMatrixVector` (row times vector). -/
def multiplyMatrixVector (m : Matrix3x3 K) (v : Vector3 K) : Vector3 K :=
  ⟨m.row0.x * v.x + m.row0.y * v.y + m.row0.z * v.z,
   m.row1.x * v.x + m.row1.y * v.y + m.row1.z * v.z,
   m.row2.x * v.x + m.row2.y * v.y + m.row2.z * v.z⟩

/-- source `subtractVectors`. -/
def subtractVectors (a b : Vector3 K) : Vector3 K :=
  ⟨a.x - b.x, a.y - b.y, a.z - b.z⟩

-- STM extraction from src/utils/maneuvers.ts.

/-- source `getSTMComponents`: probes the black-box propagator with the six
unit perturbations (`epsilon = 1.0`) and collects the propagated positions
as the columns of `Phi_rr` (position block) and `Phi_rv` (velocity block);
entry `(row, col)` is `finalState.position[row] / epsilon` for probe `col`. -/
def getSTMComponents (prop : PropFn K) (elements : OrbitalElements K)
    (theta0 thetaF deltaTime : K) : Matrix3x3 K × Matrix3x3 K :=
  let eps : K := 1
  let p0 := prop ⟨⟨eps, 0, 0⟩, ⟨0, 0, 0⟩⟩ elements theta0 thetaF deltaTime
  let p1 := prop ⟨⟨0, eps, 0⟩, ⟨0, 0, 0⟩⟩ elements theta0 thetaF deltaTime
  let p2 := prop ⟨⟨0, 0, eps⟩, ⟨0, 0, 0⟩⟩ elements theta0 thetaF deltaTime
  let q0 := prop ⟨⟨0, 0, 0⟩, ⟨eps, 0, 0⟩⟩ elements theta0 thetaF deltaTime
  let q1 := prop ⟨⟨0, 0, 0⟩, ⟨0, eps, 0⟩⟩ elements theta0 thetaF deltaTime
  let q2 := prop ⟨⟨0, 0, 0⟩, ⟨0, 0, eps⟩⟩ elements theta0 thetaF deltaTime
  (⟨⟨p0.position.x / eps, p1.position.x / eps, p2.position.x / eps⟩,
    ⟨p0.position.y / eps, p1.position.y / eps, p2.position.y / eps⟩,
    ⟨p0.position.z / eps, p1.position.z / eps, p2.position.z / eps⟩⟩,
   ⟨⟨q0.position.x / eps, q1.position.x / eps, q2.position.x / eps⟩,
    ⟨q0.position.y / eps, q1.position.y / eps, q2.position.y / eps⟩,
    ⟨q0.position.z / eps, q1.position.z / eps, q2.position.z / eps⟩⟩)

/-- source `calculateRendezvousBurn`: the targeting solver.  Computes the
final phase, extracts `Phi_rr` and `Phi_rv`, inverts `Phi_rv`, and solves
`deltaV = Phi_rv⁻¹ (target - Phi_rr r0) - v0`.  A singular `Phi_rv`
(thrown in the source) surfaces as `none`. -/
def calculateRendezvousBurn (prop : PropFn K) (tA : AnomalyFn K)
    (initialState : RelativeState K) (targetPosition : Vector3 K)
    (transferTime : K) (elements : OrbitalElements K) (currentTheta : K) :
    Option (Vector3 K) :=
  let thetaF := tA elements currentTheta transferTime
  let stm := getSTMComponents prop elements currentTheta thetaF transferTime
  match invert3x3 stm.2 with
  | none => none
  | some rvInv =>
    let phiRRr0 := multiplyMatrixVector stm.1 initialState.position
    let rDiff := subtractVectors targetPosition phiRRr0
    let vRequired := multiplyMatrixVector rvInv rDiff
    some (subtractVectors vRequired initialState.velocity)

-- Helpers from src/utils/propagation.ts.

/-- source `applyBurn`: adds a delta-v to the velocity, position unchanged. -/
def applyBurn (state : RelativeState K) (deltaV : Vector3 K) :
    RelativeState K :=
  ⟨state.position,
   ⟨state.velocity.x + deltaV.x,
    state.velocity.y + deltaV.y,
    state.velocity.z + deltaV.z⟩⟩

/-- source `stationaryState`: a state at a position with zero velocity. -/
def stationaryState (position : Vector3 K) : RelativeState K :=
  ⟨position, ⟨0, 0, 0⟩⟩

-- Facts about the extracted transition matrices.

/-- when the black-box propagator is linear in the relative state, the
position it produces is exactly the linear combination read off from the
two extracted matrix blocks. -/
theorem prop_position_linear (prop : PropFn K) (elements : OrbitalElements K)
    (theta0 thetaF deltaTime : K)
    (Hadd : ∀ s t : RelativeState K,
      prop (s + t) elements theta0 thetaF deltaTime =
        prop s elements theta0 thetaF deltaTime +
          prop t elements theta0 thetaF deltaTime)
    (Hsmul : ∀ (a : K) (s : RelativeState K),
      prop (a • s) elements theta0 thetaF deltaTime =
        a • prop s elements theta0 thetaF deltaTime)
    (s : RelativeState K) :
    (prop s elements theta0 thetaF deltaTime).position =
      multiplyMatrixVector
          (getSTMComponents prop elements theta0 thetaF deltaTime).1
          s.position +
        multiplyMatrixVector
          (getSTMComponents prop elements theta0 thetaF deltaTime).2
          s.velocity := by
  have hdecomp : s =
      s.position.x • (⟨⟨1, 0, 0⟩, ⟨0, 0, 0⟩⟩ : RelativeState K) +
        (s.position.y • (⟨⟨0, 1, 0⟩, ⟨0, 0, 0⟩⟩ : RelativeState K) +
          (s.position.z • (⟨⟨0, 0, 1⟩, ⟨0, 0, 0⟩⟩ : RelativeState K) +
            (s.velocity.x • (⟨⟨0, 0, 0⟩, ⟨1, 0, 0⟩⟩ : RelativeState K) +
              (s.velocity.y • (⟨⟨0, 0, 0⟩, ⟨0, 1, 0⟩⟩ : RelativeState K) +
                s.velocity.z •
                  (⟨⟨0, 0, 0⟩, ⟨0, 0, 1⟩⟩ : RelativeState K))))) := by
    rw [relState_eq_iff]
    constructor <;> rw [vector3_eq_iff] <;>
      refine ⟨?_, ?_, ?_⟩ <;> simp <;> ring
  conv_lhs => rw [hdecomp]
  rw [Hadd, Hadd, Hadd, Hadd, Hadd, Hsmul, Hsmul, Hsmul, Hsmul, Hsmul, Hsmul]
  rw [vector3_eq_iff]
  refine ⟨?_, ?_, ?_⟩ <;>
    simp [getSTMComponents, multiplyMatrixVector] <;> ring

/-- positivity of the singularity tolerance. -/
theorem tolerance_pos : (0 : K) < MATRIX_SINGULARITY_TOLERANCE := by
  rw [MATRIX_SINGULARITY_TOLERANCE]
  positivity

/-- a successful `invert3x3` produces a right inverse: applying `m` after
the computed inverse is the identity. -/
theorem invert3x3_right_inverse {m mInv : Matrix3x3 K}
    (h : invert3x3 m = some mInv) (w : Vector3 K) :
    multiplyMatrixVector m (multiplyMatrixVector mInv w) = w := by
  rw [invert3x3] at h
  by_cases hdet : |det3x3 m| < MATRIX_SINGULARITY_TOLERANCE
  · rw [if_pos hdet] at h
    exact absurd h (by simp)
  · rw [if_neg hdet] at h
    have hne : det3x3 m ≠ 0 := by
      intro h0
      exact hdet (by rw [h0]; simpa using tolerance_pos)
    have hm : mInv = _ := (Option.some_injective _ h.symm)
    subst hm
    rw [vector3_eq_iff]
    rw [det3x3] at hne
    refine ⟨?_, ?_, ?_⟩ <;>
      · simp only [multiplyMatrixVector, det3x3]
        field_simp
        ring

/-- C1: with a propagator that is exactly linear in the relative state, a
burn returned by `calculateRendezvousBurn` steers the propagated position
exactly onto the target. -/
theorem calculateRendezvousBurn_exact (prop : PropFn K) (tA : AnomalyFn K)
    (elements : OrbitalElements K) (initialState : RelativeState K)
    (targetPosition : Vector3 K) (transferTime theta0 : K)
    (Hadd : ∀ (th0 thF dt : K) (s t : RelativeState K),
      prop (s + t) elements th0 thF dt =
        prop s elements th0 thF dt + prop t elements th0 thF dt)
    (Hsmul : ∀ (th0 thF dt : K) (a : K) (s : RelativeState K),
      prop (a • s) elements th0 thF dt = a • prop s elements th0 thF dt)
    (deltaV : Vector3 K)
    (h : calculateRendezvousBurn prop tA initialState targetPosition
        transferTime elements theta0 = some deltaV) :
    (prop (applyBurn initialState deltaV) elements theta0
        (tA elements theta0 transferTime) transferTime).position =
      targetPosition := by
  rw [calculateRendezvousBurn] at h
  rcases hinv : invert3x3
      (getSTMComponents prop elements theta0
        (tA elements theta0 transferTime) transferTime).2 with _ | rvInv
  · rw [hinv] at h
    exact absurd h (by simp)
  · rw [hinv] at h
    have hdv : deltaV = subtractVectors
        (multiplyMatrixVector rvInv
          (subtractVectors targetPosition
            (multiplyMatrixVector
              (getSTMComponents prop elements theta0
                (tA elements theta0 transferTime) transferTime).1
              initialState.position)))
        initialState.velocity := (Option.some_injective _ h.symm)
    subst hdv
    rw [prop_position_linear prop elements theta0
      (tA elements theta0 transferTime) transferTime
      (Hadd theta0 (tA elements theta0 transferTime) transferTime)
      (Hsmul theta0 (tA elements theta0 transferTime) transferTime)]
    have hvel : (applyBurn initialState
        (subtractVectors
          (multiplyMatrixVector rvInv
            (subtractVectors targetPosition
              (multiplyMatrixVector
                (getSTMComponents prop elements theta0
                  (tA elements theta0 transferTime) transferTime).1
                initialState.position)))
          initialState.velocity)).velocity =
        multiplyMatrixVector rvInv
          (subtractVectors targetPosition
            (multiplyMatrixVector
              (getSTMComponents prop elements theta0
                (tA elements theta0 transferTime) transferTime).1
              initialState.position)) := by
      rw [vector3_eq_iff]
      refine ⟨?_, ?_, ?_⟩ <;> simp [applyBurn, subtractVectors] <;> ring
    rw [hvel, invert3x3_right_inverse hinv]
    have hpos : (applyBurn initialState
        (subtractVectors
          (multiplyMatrixVector rvInv
            (subtractVectors targetPosition
              (multiplyMatrixVector
                (getSTMComponents prop elements theta0
                  (tA elements theta0 transferTime) transferTime).1
                initialState.position)))
          initialState.velocity)).position = initialState.position := rfl
    rw [hpos]
    rw [vector3_eq_iff]
    refine ⟨?_, ?_, ?_⟩ <;> simp [subtractVectors] <;> ring

/-- C3: a velocity-to-position block whose determinant is within the
singularity tolerance makes `calculateRendezvousBurn` raise (return no
delta-v at all). -/
theorem calculateRendezvousBurn_singular_raises (prop : PropFn K)
    (tA : AnomalyFn K) (elements : OrbitalElements K)
    (initialState : RelativeState K) (targetPosition : Vector3 K)
    (transferTime theta0 : K)
    (h : |det3x3 (getSTMComponents prop elements theta0
        (tA elements theta0 transferTime) transferTime).2| <
      MATRIX_SINGULARITY_TOLERANCE) :
    calculateRendezvousBurn prop tA initialState targetPosition transferTime
      elements theta0 = none := by
  rw [calculateRendezvousBurn, invert3x3, if_pos h]

-- Concrete rational stand-ins for the external propagator, used to
-- exercise the generic theorems on explicit inputs.  `simpleProp` is an
-- exactly linear propagator (uniform drift), `zeroProp` collapses every
-- state, making the extracted velocity block singular.

/-- a concrete exactly-linear propagator over `ℚ`: position drifts by
`deltaTime` times the velocity, velocity is unchanged. -/
def simpleProp : PropFn ℚ := fun s _ _ _ deltaTime =>
  ⟨⟨s.position.x + deltaTime * s.velocity.x,
    s.position.y + deltaTime * s.velocity.y,
    s.position.z + deltaTime * s.velocity.z⟩,
   s.velocity⟩

/-- a concrete phase function over `ℚ`: phase advances by the elapsed
time. -/
def simpleAnomaly : AnomalyFn ℚ := fun _ theta0 deltaTime =>
  theta0 + deltaTime

/-- a concrete degenerate propagator over `ℚ` that sends every state to
the origin, so both extracted matrix blocks vanish. -/
def zeroProp : PropFn ℚ := fun _ _ _ _ _ => ⟨⟨0, 0, 0⟩, ⟨0, 0, 0⟩⟩

/-- the additivity half of linearity for `simpleProp`. -/
theorem simpleProp_add (elements : OrbitalElements ℚ)
    (th0 thF dt : ℚ) (s t : RelativeState ℚ) :
    simpleProp (s + t) elements th0 thF dt =
      simpleProp s elements th0 thF dt + simpleProp t elements th0 thF dt := by
  rw [relState_eq_iff]
  constructor <;> rw [vector3_eq_iff] <;>
    refine ⟨?_, ?_, ?_⟩ <;> simp [simpleProp] <;> ring

/-- the homogeneity half of linearity for `simpleProp`. -/
theorem simpleProp_smul (elements : OrbitalElements ℚ)
    (th0 thF dt : ℚ) (a : ℚ) (s : RelativeState ℚ) :
    simpleProp (a • s) elements th0 thF dt =
      a • simpleProp s elements th0 thF dt := by
  rw [relState_eq_iff]
  constructor <;> rw [vector3_eq_iff] <;>
    refine ⟨?_, ?_, ?_⟩ <;> simp [simpleProp] <;> ring

/-- witness for C1: the spec example scenario — initial position
`(1000, -2000, 0)` at rest, target `(0, 500, 0)`, transfer time `1000`,
`theta0 = 0` — under the concrete linear propagator; the solved burn is
`(-1, 5/2, 0)` and the re-propagated position is exactly the target. -/
theorem calculateRendezvousBurn_exact_witness :
    (calculateRendezvousBurn simpleProp simpleAnomaly
        ⟨⟨1000, -2000, 0⟩, ⟨0, 0, 0⟩⟩ ⟨0, 500, 0⟩ 1000 ⟨0, 0, 0⟩ 0 =
      some ⟨-1, 5 / 2, 0⟩) ∧
    (simpleProp (applyBurn ⟨⟨1000, -2000, 0⟩, ⟨0, 0, 0⟩⟩ ⟨-1, 5 / 2, 0⟩)
        ⟨0, 0, 0⟩ 0 (simpleAnomaly ⟨0, 0, 0⟩ 0 1000) 1000).position =
      ⟨0, 500, 0⟩ :=
  ⟨by
     norm_num [calculateRendezvousBurn, getSTMComponents, invert3x3, det3x3,
       multiplyMatrixVector, subtractVectors, simpleProp, simpleAnomaly,
       MATRIX_SINGULARITY_TOLERANCE, vector3_eq_iff],
   calculateRendezvousBurn_exact simpleProp simpleAnomaly ⟨0, 0, 0⟩
     ⟨⟨1000, -2000, 0⟩, ⟨0, 0, 0⟩⟩ ⟨0, 500, 0⟩ 1000 0
     (fun th0 thF dt s t => simpleProp_add ⟨0, 0, 0⟩ th0 thF dt s t)
     (fun th0 thF dt a s => simpleProp_smul ⟨0, 0, 0⟩ th0 thF dt a s)
     ⟨-1, 5 / 2, 0⟩
     (by
       norm_num [calculateRendezvousBurn, getSTMComponents, invert3x3,
         det3x3, multiplyMatrixVector, subtractVectors, simpleProp,
         simpleAnomaly, MATRIX_SINGULARITY_TOLERANCE, vector3_eq_iff])⟩

/-- witness for C3: under the degenerate propagator the extracted velocity
block has determinant `0`, within tolerance, and the solver raises. -/
theorem calculateRendezvousBurn_singular_raises_witness :
    (|det3x3 ((getSTMComponents zeroProp ⟨0, 0, 0⟩ 0
          (simpleAnomaly ⟨0, 0, 0⟩ 0 100) 100)).2| <
        (MATRIX_SINGULARITY_TOLERANCE : ℚ)) ∧
    calculateRendezvousBurn zeroProp simpleAnomaly
        ⟨⟨1000, -2000, 0⟩, ⟨0, 0, 0⟩⟩ ⟨0, 500, 0⟩ 100 ⟨0, 0, 0⟩ 0 = none :=
  ⟨by
     norm_num [getSTMComponents, det3x3, zeroProp, simpleAnomaly,
       MATRIX_SINGULARITY_TOLERANCE],
   calculateRendezvousBurn_singular_raises zeroProp simpleAnomaly ⟨0, 0, 0⟩
     ⟨⟨1000, -2000, 0⟩, ⟨0, 0, 0⟩⟩ ⟨0, 500, 0⟩ 100 0
     (by
       norm_num [getSTMComponents, det3x3, zeroProp, simpleAnomaly,
         MATRIX_SINGULARITY_TOLERANCE])⟩

-- Waypoint data model from src/types/waypoint.ts (staged among the
-- unnamed sources).

/-- source `Waypoint = { id: string; position: Vector3 }` from
src/types/waypoint.ts; the identifier plays no role in the planning
logic. -/
structure Waypoint (K : Type) where
  id : String
  position : Vector3 K
deriving DecidableEq

/-- source `ManeuverLeg = { targetPosition, transferTime, deltaV,
arrivalDeltaV }` from src/types/waypoint.ts. -/
structure ManeuverLeg (K : Type) where
  targetPosition : Vector3 K
  transferTime : K
  deltaV : Vector3 K
  arrivalDeltaV : Vector3 K
deriving DecidableEq

-- Planning functions from src/utils/waypointManeuvers.ts.

/-- source local `distance`: Euclidean distance between two positions; the
square root is the explicit `sqrt` parameter standing for `Math.sqrt`. -/
def distance (sqrt : K → K) (fromPosition toPosition : Vector3 K) : K :=
  sqrt ((toPosition.x - fromPosition.x) ^ 2 + (toPosition.y - fromPosition.y) ^ 2 +
    (toPosition.z - fromPosition.z) ^ 2)

/-- source `calculateTransferTime`: distance over the approach rate,
floored at the minimum transfer time.  The source's optional
`approachRate` parameter always takes its default
`DEFAULT_APPROACH_RATE` in this repository, so it is inlined. -/
def calculateTransferTime (sqrt : K → K) (fromPosition toPosition : Vector3 K) : K :=
  max (distance sqrt fromPosition toPosition / DEFAULT_APPROACH_RATE)
    MIN_TRANSFER_TIME

/-- result record of `calculateLegManeuver`:
`{ leg, arrivalState, nextTheta }`. -/
structure LegResult (K : Type) where
  leg : ManeuverLeg K
  arrivalState : RelativeState K
  nextTheta : K
deriving DecidableEq

/-- source `calculateLegManeuver`: transfer time from the distance
heuristic, departure burn from the targeting solver, arrival state by
propagating the post-burn state, arrival burn as the negated raw arrival
velocity.  A singular targeting solve (a throw in the source) surfaces as
`none`. -/
def calculateLegManeuver (sqrt : K → K) (prop : PropFn K) (tA : AnomalyFn K)
    (elements : OrbitalElements K) (state : RelativeState K)
    (targetPosition : Vector3 K) (theta : K) : Option (LegResult K) :=
  let transferTime := calculateTransferTime sqrt state.position targetPosition
  match calculateRendezvousBurn prop tA state targetPosition transferTime
      elements theta with
  | none => none
  | some deltaV =>
    let postBurnState := applyBurn state deltaV
    let nextTheta := tA elements theta transferTime
    let arrivalState := prop postBurnState elements theta nextTheta transferTime
    some
      ⟨⟨targetPosition, transferTime, deltaV,
        ⟨-arrivalState.velocity.x, -arrivalState.velocity.y,
         -arrivalState.velocity.z⟩⟩,
       arrivalState, nextTheta⟩

/-- source `calculateManeuverQueue`: chains `calculateLegManeuver` through
the waypoints, restarting each leg from the stationary state at the
previous arrival position. -/
def calculateManeuverQueue (sqrt : K → K) (prop : PropFn K) (tA : AnomalyFn K)
    (elements : OrbitalElements K) :
    RelativeState K → List (Waypoint K) → K → Option (List (ManeuverLeg K))
  | _, [], _ => some []
  | state, w :: ws, theta =>
    match calculateLegManeuver sqrt prop tA elements state w.position theta with
    | none => none
    | some res =>
      match calculateManeuverQueue sqrt prop tA elements
          (stationaryState res.arrivalState.position) ws res.nextTheta with
      | none => none
      | some rest => some (res.leg :: rest)

/-- source `legDeltaV`: departure plus arrival burn magnitude. -/
def legDeltaV (sqrt : K → K) (leg : ManeuverLeg K) : K :=
  sqrt (leg.deltaV.x ^ 2 + leg.deltaV.y ^ 2 + leg.deltaV.z ^ 2) +
    sqrt (leg.arrivalDeltaV.x ^ 2 + leg.arrivalDeltaV.y ^ 2 +
      leg.arrivalDeltaV.z ^ 2)

/-- source `totalDeltaV`: sum of every leg's combined burn magnitude. -/
def totalDeltaV (sqrt : K → K) (legs : List (ManeuverLeg K)) : K :=
  legs.foldl (fun sum leg => sum + legDeltaV sqrt leg) 0

-- Waypoint validation from src/utils/waypointManeuvers.ts.

/-- kinds of validation errors produced by `validateWaypoints`. -/
inductive ValidationErrorType where
  | too_close
  | high_delta_v
  | overlapping
deriving DecidableEq

/-- source `WaypointValidationError` without the human-readable `message`
string (a formatted float rendering carrying no further information). -/
structure WaypointValidationError where
  type : ValidationErrorType
  waypointIndex : Nat
deriving DecidableEq

/-- inner loop of `validateWaypoints`: checks waypoint `i` (at position
`wi`) against every later waypoint `j > i`, reporting `overlapping` at
index `j` when the separation is below the minimum. -/
def overlapChecks (sqrt : K → K) (wi : Vector3 K) :
    Nat → List (Waypoint K) → List WaypointValidationError
  | _, [] => []
  | j, w :: rest =>
    (if distance sqrt wi w.position < MIN_WAYPOINT_DISTANCE then
      [⟨ValidationErrorType.overlapping, j⟩]
    else []) ++ overlapChecks sqrt wi (j + 1) rest

/-- body of the `validateWaypoints` outer loop from waypoint index `i`
onward, with `prevPosition` the current position (for `i = 0`) or the
previous waypoint's position; error order matches the source's pushes. -/
def validateFrom (sqrt : K → K) (legs : List (ManeuverLeg K)) :
    Vector3 K → Nat → List (Waypoint K) → List WaypointValidationError
  | _, _, [] => []
  | prevPosition, i, w :: rest =>
    (if distance sqrt prevPosition w.position < MIN_WAYPOINT_DISTANCE then
      [⟨ValidationErrorType.too_close, i⟩]
    else []) ++
      overlapChecks sqrt w.position (i + 1) rest ++
      (match legs.get? i with
       | some leg =>
         if legDeltaV sqrt leg > MAX_LEG_DELTA_V then
           [⟨ValidationErrorType.high_delta_v, i⟩]
         else []
       | none => []) ++
      validateFrom sqrt legs w.position (i + 1) rest

/-- source `validateWaypoints`: collects all applicable `too_close`,
`overlapping` and `high_delta_v` errors over the waypoint list. -/
def validateWaypoints (sqrt : K → K) (currentPosition : Vector3 K)
    (waypoints : List (Waypoint K)) (legs : List (ManeuverLeg K)) :
    List WaypointValidationError :=
  validateFrom sqrt legs currentPosition 0 waypoints

/-- C4: for any leg the planner returns, adding the arrival burn to the
velocity obtained by propagating the post-departure-burn state for the
leg's transfer time gives exactly zero velocity. -/
theorem calculateLegManeuver_arrival_nulls_velocity (sqrt : K → K)
    (prop : PropFn K) (tA : AnomalyFn K) (elements : OrbitalElements K)
    (state : RelativeState K) (targetPosition : Vector3 K) (theta : K)
    (res : LegResult K)
    (h : calculateLegManeuver sqrt prop tA elements state targetPosition
      theta = some res) :
    (prop (applyBurn state res.leg.deltaV) elements theta
          (tA elements theta res.leg.transferTime)
          res.leg.transferTime).velocity +
        res.leg.arrivalDeltaV = (0 : Vector3 K) := by
  rw [calculateLegManeuver] at h
  rcases hburn : calculateRendezvousBurn prop tA state targetPosition
      (calculateTransferTime sqrt state.position targetPosition) elements
      theta with _ | deltaV
  · rw [hburn] at h
    exact absurd h (by simp)
  · rw [hburn] at h
    have hres := (Option.some_injective _ h.symm)
    subst hres
    rw [vector3_eq_iff]
    refine ⟨?_, ?_, ?_⟩ <;> simp <;> ring

/-- C5 (amended): the planner returns the raw propagated arrival state —
its position is the propagated post-burn position, its arrival phase is
the advanced phase, and its velocity is the negation of the arrival burn
rather than zero. -/
theorem calculateLegManeuver_returns_raw_arrival (sqrt : K → K)
    (prop : PropFn K) (tA : AnomalyFn K) (elements : OrbitalElements K)
    (state : RelativeState K) (targetPosition : Vector3 K) (theta : K)
    (res : LegResult K)
    (h : calculateLegManeuver sqrt prop tA elements state targetPosition
      theta = some res) :
    res.arrivalState =
        prop (applyBurn state res.leg.deltaV) elements theta res.nextTheta
          res.leg.transferTime ∧
      res.nextTheta = tA elements theta res.leg.transferTime ∧
      res.arrivalState.velocity =
        ⟨-res.leg.arrivalDeltaV.x, -res.leg.arrivalDeltaV.y,
         -res.leg.arrivalDeltaV.z⟩ := by
  rw [calculateLegManeuver] at h
  rcases hburn : calculateRendezvousBurn prop tA state targetPosition
      (calculateTransferTime sqrt state.position targetPosition) elements
      theta with _ | deltaV
  · rw [hburn] at h
    exact absurd h (by simp)
  · rw [hburn] at h
    have hres := (Option.some_injective _ h.symm)
    subst hres
    refine ⟨rfl, rfl, ?_⟩
    rw [vector3_eq_iff]
    refine ⟨?_, ?_, ?_⟩ <;> simp

/-- C5 counterexample: from rest at the origin toward `(60, 0, 0)` under
the concrete linear propagator, the arrival state the planner returns has
velocity `(1/120, 0, 0)`, which is not zero — the returned arrival state
is not stationary. -/
theorem calculateLegManeuver_arrival_not_stationary_cex :
    ((calculateLegManeuver id simpleProp simpleAnomaly ⟨0, 0, 0⟩
        ⟨⟨0, 0, 0⟩, ⟨0, 0, 0⟩⟩ ⟨60, 0, 0⟩ 0).map
      (fun r => r.arrivalState.velocity) = some ⟨1 / 120, 0, 0⟩) ∧
    (⟨1 / 120, 0, 0⟩ : Vector3 ℚ) ≠ ⟨0, 0, 0⟩ := by
  constructor
  · norm_num [calculateLegManeuver, calculateTransferTime, distance,
      calculateRendezvousBurn, getSTMComponents, invert3x3, det3x3,
      multiplyMatrixVector, subtractVectors, applyBurn, simpleProp,
      simpleAnomaly, MATRIX_SINGULARITY_TOLERANCE, DEFAULT_APPROACH_RATE,
      MIN_TRANSFER_TIME, vector3_eq_iff]
  · rw [Ne, vector3_eq_iff]
    norm_num

/-- witness for C4: the concrete leg from the origin to `(60, 0, 0)` has
arrival burn `(-1/120, 0, 0)`, exactly cancelling the propagated arrival
velocity. -/
theorem calculateLegManeuver_arrival_nulls_velocity_witness :
    (calculateLegManeuver id simpleProp simpleAnomaly ⟨0, 0, 0⟩
        ⟨⟨0, 0, 0⟩, ⟨0, 0, 0⟩⟩ ⟨60, 0, 0⟩ 0 =
      some ⟨⟨⟨60, 0, 0⟩, 7200, ⟨1 / 120, 0, 0⟩, ⟨-(1 / 120), 0, 0⟩⟩,
        ⟨⟨60, 0, 0⟩, ⟨1 / 120, 0, 0⟩⟩, 7200⟩) ∧
      (simpleProp (applyBurn ⟨⟨0, 0, 0⟩, ⟨0, 0, 0⟩⟩ ⟨1 / 120, 0, 0⟩)
            ⟨0, 0, 0⟩ 0 (simpleAnomaly ⟨0, 0, 0⟩ 0 7200) 7200).velocity +
          ⟨-(1 / 120), 0, 0⟩ = (0 : Vector3 ℚ) := by
  have h : calculateLegManeuver id simpleProp simpleAnomaly ⟨0, 0, 0⟩
      ⟨⟨0, 0, 0⟩, ⟨0, 0, 0⟩⟩ ⟨60, 0, 0⟩ 0 =
      some ⟨⟨⟨60, 0, 0⟩, 7200, ⟨1 / 120, 0, 0⟩, ⟨-(1 / 120), 0, 0⟩⟩,
        ⟨⟨60, 0, 0⟩, ⟨1 / 120, 0, 0⟩⟩, 7200⟩ := by
    norm_num [calculateLegManeuver, calculateTransferTime, distance,
      calculateRendezvousBurn, getSTMComponents, invert3x3, det3x3,
      multiplyMatrixVector, subtractVectors, applyBurn, simpleProp,
      simpleAnomaly, MATRIX_SINGULARITY_TOLERANCE, DEFAULT_APPROACH_RATE,
      MIN_TRANSFER_TIME, vector3_eq_iff, LegResult.mk.injEq,
      ManeuverLeg.mk.injEq, RelativeState.mk.injEq]
  exact ⟨h,
    calculateLegManeuver_arrival_nulls_velocity id simpleProp simpleAnomaly
      ⟨0, 0, 0⟩ ⟨⟨0, 0, 0⟩, ⟨0, 0, 0⟩⟩ ⟨60, 0, 0⟩ 0 _ h⟩

/-- witness for the amended C5: the same concrete leg's arrival state is
the raw propagated state, with velocity the negated arrival burn. -/
theorem calculateLegManeuver_returns_raw_arrival_witness :
    (calculateLegManeuver id simpleProp simpleAnomaly ⟨0, 0, 0⟩
        ⟨⟨0, 0, 0⟩, ⟨0, 0, 0⟩⟩ ⟨60, 0, 0⟩ 0 =
      some ⟨⟨⟨60, 0, 0⟩, 7200, ⟨1 / 120, 0, 0⟩, ⟨-(1 / 120), 0, 0⟩⟩,
        ⟨⟨60, 0, 0⟩, ⟨1 / 120, 0, 0⟩⟩, 7200⟩) ∧
      ((⟨⟨60, 0, 0⟩, ⟨1 / 120, 0, 0⟩⟩ : RelativeState ℚ) =
          simpleProp (applyBurn ⟨⟨0, 0, 0⟩, ⟨0, 0, 0⟩⟩ ⟨1 / 120, 0, 0⟩)
            ⟨0, 0, 0⟩ 0 7200 7200 ∧
        (7200 : ℚ) = simpleAnomaly ⟨0, 0, 0⟩ 0 7200 ∧
        (⟨⟨60, 0, 0⟩, ⟨1 / 120, 0, 0⟩⟩ : RelativeState ℚ).velocity =
          ⟨-(-(1 / 120)), -(0 : ℚ), -(0 : ℚ)⟩) := by
  have h : calculateLegManeuver id simpleProp simpleAnomaly ⟨0, 0, 0⟩
      ⟨⟨0, 0, 0⟩, ⟨0, 0, 0⟩⟩ ⟨60, 0, 0⟩ 0 =
      some ⟨⟨⟨60, 0, 0⟩, 7200, ⟨1 / 120, 0, 0⟩, ⟨-(1 / 120), 0, 0⟩⟩,
        ⟨⟨60, 0, 0⟩, ⟨1 / 120, 0, 0⟩⟩, 7200⟩ := by
    norm_num [calculateLegManeuver, calculateTransferTime, distance,
      calculateRendezvousBurn, getSTMComponents, invert3x3, det3x3,
      multiplyMatrixVector, subtractVectors, applyBurn, simpleProp,
      simpleAnomaly, MATRIX_SINGULARITY_TOLERANCE, DEFAULT_APPROACH_RATE,
      MIN_TRANSFER_TIME, vector3_eq_iff, LegResult.mk.injEq,
      ManeuverLeg.mk.injEq, RelativeState.mk.injEq]
  exact ⟨h,
    calculateLegManeuver_returns_raw_arrival id simpleProp simpleAnomaly
      ⟨0, 0, 0⟩ ⟨⟨0, 0, 0⟩, ⟨0, 0, 0⟩⟩ ⟨60, 0, 0⟩ 0 _ h⟩

-- Maneuver queue state machine from src/hooks/useManeuverQueue.ts.

/-- discriminant of a leg-transition result; the source uses the string
union `"continue" | "complete"` (`continue` is a Lean keyword, hence
`cont`). -/
inductive TransitionType where
  | cont
  | complete
deriving DecidableEq

/-- source `LegTransitionResult`: result type, the new live state (the
source's `newState: { position, velocity }` record), and the optional next
phase. -/
structure LegTransitionResult (K : Type) where
  type : TransitionType
  newState : RelativeState K
  nextTheta : Option K
deriving DecidableEq

/-- source `ManeuverQueue = { legs, currentLegIndex, startTheta,
currentTheta }` from src/types/waypoint.ts. -/
structure ManeuverQueue (K : Type) where
  legs : List (ManeuverLeg K)
  currentLegIndex : Nat
  startTheta : K
  currentTheta : K
deriving DecidableEq

/-- the three reactive state cells of the `useManeuverQueue` hook
(`queue`, `executingWaypoints`, `previewLegs`), threaded explicitly. -/
structure HookState (K : Type) where
  queue : Option (ManeuverQueue K)
  executingWaypoints : List (Waypoint K)
  previewLegs : List (ManeuverLeg K)
deriving DecidableEq

/-- source `startExecution`: returns the pair (returned value, new hook
state).  Returned value `null` for empty waypoints is the inner `none`; a
thrown targeting error is the outer `none`.  On success the queue stores
all chained legs with leg 0 overwritten by the freshly recomputed first
leg, the waypoint snapshot is saved, and the returned live state carries
the first departure burn. -/
def startExecution (sqrt : K → K) (prop : PropFn K) (tA : AnomalyFn K)
    (elements : OrbitalElements K) (hs : HookState K)
    (currentState : RelativeState K) (waypoints : List (Waypoint K))
    (elapsedTime : K) : Option (Option (RelativeState K) × HookState K) :=
  match waypoints with
  | [] => some (none, hs)
  | w0 :: _ =>
    let startTheta := tA elements 0 elapsedTime
    match calculateLegManeuver sqrt prop tA elements currentState w0.position
        startTheta with
    | none => none
    | some freshFirst =>
      match calculateManeuverQueue sqrt prop tA elements currentState
          waypoints startTheta with
      | none => none
      | some allLegs =>
        some
          (some
            ⟨currentState.position,
             ⟨currentState.velocity.x + freshFirst.leg.deltaV.x,
              currentState.velocity.y + freshFirst.leg.deltaV.y,
              currentState.velocity.z + freshFirst.leg.deltaV.z⟩⟩,
           ⟨some ⟨allLegs.set 0 freshFirst.leg, 0, startTheta, startTheta⟩,
            waypoints, hs.previewLegs⟩)

/-- source `checkLegTransition`: returns the pair (returned value, new
hook state).  `null` returns (no queue, leg not yet elapsed, or the
missing-waypoint safety branch) are the inner `none`; a thrown targeting
error, or the out-of-range leg access the source would crash on, is the
outer `none`. -/
def checkLegTransition (sqrt : K → K) (prop : PropFn K) (tA : AnomalyFn K)
    (elements : OrbitalElements K) (hs : HookState K) (newTime : K)
    (currentState : RelativeState K) :
    Option (Option (LegTransitionResult K) × HookState K) :=
  match hs.queue with
  | none => some (none, hs)
  | some currentQueue =>
    match currentQueue.legs.get? currentQueue.currentLegIndex with
    | none => none
    | some currentLeg =>
      if newTime < currentLeg.transferTime then
        some (none, hs)
      else
        let nextIndex := currentQueue.currentLegIndex + 1
        let nextTheta :=
          tA elements currentQueue.currentTheta currentLeg.transferTime
        if nextIndex < currentQueue.legs.length then
          match hs.executingWaypoints.get? nextIndex with
          | none => some (none, ⟨none, [], hs.previewLegs⟩)
          | some nextWaypoint =>
            match calculateLegManeuver sqrt prop tA elements
                ⟨currentState.position, ⟨0, 0, 0⟩⟩ nextWaypoint.position
                nextTheta with
            | none => none
            | some freshNext =>
              some
                (some
                  ⟨TransitionType.cont,
                   ⟨currentState.position, freshNext.leg.deltaV⟩,
                   some nextTheta⟩,
                 ⟨some ⟨currentQueue.legs.set nextIndex freshNext.leg,
                    nextIndex, currentQueue.startTheta, nextTheta⟩,
                  hs.executingWaypoints, hs.previewLegs⟩)
        else
          some
            (some
              ⟨TransitionType.complete,
               ⟨currentState.position, ⟨0, 0, 0⟩⟩, some nextTheta⟩,
             ⟨none, [], hs.previewLegs⟩)

/-- source `cancelExecution`: unconditionally clears the queue, the
waypoint snapshot and the preview legs. -/
def cancelExecution (hs : HookState K) : HookState K := ⟨none, [], []⟩

/-- C9: cancellation always leaves the queue absent with the preview state
cleared, and repeating it changes nothing. -/
theorem cancelExecution_idempotent (hs : HookState K) :
    (cancelExecution hs).queue = none ∧
      (cancelExecution hs).previewLegs = [] ∧
      (cancelExecution hs).executingWaypoints = [] ∧
      cancelExecution (cancelExecution hs) = cancelExecution hs :=
  ⟨rfl, rfl, rfl, rfl⟩

/-- C6 (amended): on a missing next waypoint, `checkLegTransition`
destroys the queue and the waypoint snapshot and applies no burn, but it
returns `null` — the very value a no-op call returns — rather than
raising; the fault is observable only through the queue becoming
absent. -/
theorem checkLegTransition_missing_waypoint (sqrt : K → K) (prop : PropFn K)
    (tA : AnomalyFn K) (elements : OrbitalElements K) (hs : HookState K)
    (q : ManeuverQueue K) (currentLeg : ManeuverLeg K) (newTime : K)
    (currentState : RelativeState K)
    (hq : hs.queue = some q)
    (hleg : q.legs.get? q.currentLegIndex = some currentLeg)
    (htime : ¬ newTime < currentLeg.transferTime)
    (hnext : q.currentLegIndex + 1 < q.legs.length)
    (hw : hs.executingWaypoints.get? (q.currentLegIndex + 1) = none) :
    checkLegTransition sqrt prop tA elements hs newTime currentState =
      some (none, ⟨none, [], hs.previewLegs⟩) := by
  rw [checkLegTransition, hq]
  simp only [hleg, if_neg htime, if_pos hnext, hw]

/-- C6 counterexample: a concrete queue of two legs whose stored waypoint
snapshot has only one entry.  The faulting transition call returns
normally with value `null` and a cleared queue; the idle no-op call
returns the same `null` value — the fault does not unwind to the caller
and its returned value is indistinguishable from a no-op's. -/
theorem checkLegTransition_missing_waypoint_cex :
    (checkLegTransition (fun q => if q = 900 then 30 else 0) simpleProp
        simpleAnomaly ⟨0, 0, 0⟩
        ⟨some ⟨[⟨⟨30, 0, 0⟩, 60, ⟨0, 0, 0⟩, ⟨0, 0, 0⟩⟩,
            ⟨⟨60, 0, 0⟩, 60, ⟨0, 0, 0⟩, ⟨0, 0, 0⟩⟩], 0, 0, 0⟩,
         [⟨"w1", ⟨30, 0, 0⟩⟩], []⟩ 60 ⟨⟨30, 0, 0⟩, ⟨0, 0, 0⟩⟩ =
      some (none, ⟨none, [], []⟩)) ∧
    (checkLegTransition (fun q => if q = 900 then 30 else 0) simpleProp
        simpleAnomaly ⟨0, 0, 0⟩ (⟨none, [], []⟩ : HookState ℚ) 60
        ⟨⟨30, 0, 0⟩, ⟨0, 0, 0⟩⟩ =
      some (none, ⟨none, [], []⟩)) := by
  constructor
  · norm_num [checkLegTransition]
  · norm_num [checkLegTransition]

/-- witness for the amended C6: the same concrete faulting input,
discharged through the general theorem. -/
theorem checkLegTransition_missing_waypoint_witness :
    checkLegTransition (fun q => if q = 900 then 30 else 0) simpleProp
        simpleAnomaly ⟨0, 0, 0⟩
        ⟨some ⟨[⟨⟨30, 0, 0⟩, 60, ⟨0, 0, 0⟩, ⟨0, 0, 0⟩⟩,
            ⟨⟨60, 0, 0⟩, 60, ⟨0, 0, 0⟩, ⟨0, 0, 0⟩⟩], 0, 0, 0⟩,
         [⟨"w1", ⟨30, 0, 0⟩⟩], []⟩ 60 ⟨⟨30, 0, 0⟩, ⟨0, 0, 0⟩⟩ =
      some (none, ⟨none, [], []⟩) :=
  checkLegTransition_missing_waypoint (fun q => if q = 900 then 30 else 0)
    simpleProp simpleAnomaly ⟨0, 0, 0⟩ _ _ _ 60 ⟨⟨30, 0, 0⟩, ⟨0, 0, 0⟩⟩ rfl
    rfl (by norm_num) (by norm_num) rfl

/-- a successful `calculateManeuverQueue` produces one leg per waypoint. -/
theorem calculateManeuverQueue_length (sqrt : K → K) (prop : PropFn K)
    (tA : AnomalyFn K) (elements : OrbitalElements K) :
    ∀ (waypoints : List (Waypoint K)) (state : RelativeState K) (theta : K)
      (legs : List (ManeuverLeg K)),
      calculateManeuverQueue sqrt prop tA elements state waypoints theta =
        some legs →
      legs.length = waypoints.length := by
  intro waypoints
  induction waypoints with
  | nil =>
    intro state theta legs h
    rw [calculateManeuverQueue] at h
    simp only [Option.some.injEq] at h
    subst h
    rfl
  | cons w ws ih =>
    intro state theta legs h
    rw [calculateManeuverQueue] at h
    rcases hcalc : calculateLegManeuver sqrt prop tA elements state
        w.position theta with _ | res
    · rw [hcalc] at h
      exact absurd h (by simp)
    · rw [hcalc] at h
      dsimp only at h
      rcases hrest : calculateManeuverQueue sqrt prop tA elements
          (stationaryState res.arrivalState.position) ws res.nextTheta with
        _ | rest
      · rw [hrest] at h
        exact absurd h (by simp)
      · rw [hrest] at h
        simp only [Option.some.injEq] at h
        subst h
        simp [ih _ _ _ hrest]

/-- driver for the queue-completion scenario: performs `n` successive
`checkLegTransition` calls, each with elapsed time equal to the active
leg's transfer time plus a caller-chosen slack, feeding caller-chosen live
states, and collects every call's returned result type. -/
def driveQueue (sqrt : K → K) (prop : PropFn K) (tA : AnomalyFn K)
    (elements : OrbitalElements K) :
    Nat → HookState K → List K → List (RelativeState K) →
      Option (List (Option TransitionType) × HookState K)
  | 0, hs, _, _ => some ([], hs)
  | n + 1, hs, extras, states =>
    let newTime :=
      match hs.queue with
      | none => 0
      | some q =>
        match q.legs.get? q.currentLegIndex with
        | none => 0
        | some leg => leg.transferTime + extras.headD 0
    match checkLegTransition sqrt prop tA elements hs newTime
        (states.headD ⟨⟨0, 0, 0⟩, ⟨0, 0, 0⟩⟩) with
    | none => none
    | some (res, hs1) =>
      match driveQueue sqrt prop tA elements n hs1 extras.tail
          states.tail with
      | none => none
      | some (results, hs2) =>
        some ((res.map fun r => r.type) :: results, hs2)

/-- invariant behind the queue-completion claim: from an executing queue
with `n` legs remaining (snapshot covering every leg), a successful
`n`-step drive returns `n - 1` continue results, one complete result, and
no queue. -/
theorem driveQueue_spec (sqrt : K → K) (prop : PropFn K) (tA : AnomalyFn K)
    (elements : OrbitalElements K) :
    ∀ (n : Nat) (hs : HookState K) (q : ManeuverQueue K) (extras : List K)
      (states : List (RelativeState K))
      (results : List (Option TransitionType)) (hs2 : HookState K),
      hs.queue = some q →
      q.currentLegIndex + n = q.legs.length →
      q.legs.length ≤ hs.executingWaypoints.length →
      (∀ e ∈ extras, 0 ≤ e) →
      driveQueue sqrt prop tA elements n hs extras states =
        some (results, hs2) →
      0 < n →
      results = List.replicate (n - 1) (some TransitionType.cont) ++
          [some TransitionType.complete] ∧
        hs2.queue = none := by
  intro n
  induction n with
  | zero =>
    intro hs q extras states results hs2 _ _ _ _ _ h0
    exact absurd h0 (by simp)
  | succ m ih =>
    intro hs q extras states results hs2 hq hlen hew hex hrun _
    have hi : q.currentLegIndex < q.legs.length := by omega
    obtain ⟨leg, hleg⟩ : ∃ leg, q.legs.get? q.currentLegIndex = some leg :=
      ⟨_, List.get?_eq_get hi⟩
    have hslack : (0 : K) ≤ extras.headD 0 := by
      cases extras with
      | nil => simp
      | cons e es => exact hex e (by simp)
    have htime : ¬ leg.transferTime + extras.headD 0 < leg.transferTime := by
      simp only [not_lt]
      linarith
    rw [driveQueue] at hrun
    simp only [hq, hleg] at hrun
    rw [checkLegTransition] at hrun
    simp only [hq, hleg, if_neg htime] at hrun
    by_cases hn : q.currentLegIndex + 1 < q.legs.length
    · have hm : 0 < m := by omega
      simp only [if_pos hn] at hrun
      obtain ⟨w, hw⟩ : ∃ w,
          hs.executingWaypoints.get? (q.currentLegIndex + 1) = some w :=
        ⟨_, List.get?_eq_get (lt_of_lt_of_le hn hew)⟩
      rw [hw] at hrun
      dsimp only at hrun
      rcases hcalc : calculateLegManeuver sqrt prop tA elements
          ⟨(states.headD ⟨⟨0, 0, 0⟩, ⟨0, 0, 0⟩⟩).position, ⟨0, 0, 0⟩⟩
          w.position (tA elements q.currentTheta leg.transferTime) with
        _ | fresh
      · rw [hcalc] at hrun
        exact absurd hrun (by simp)
      · rw [hcalc] at hrun
        dsimp only at hrun
        rcases hrec : driveQueue sqrt prop tA elements m
            ⟨some ⟨q.legs.set (q.currentLegIndex + 1) fresh.leg,
               q.currentLegIndex + 1, q.startTheta,
               tA elements q.currentTheta leg.transferTime⟩,
             hs.executingWaypoints, hs.previewLegs⟩ extras.tail
            states.tail with _ | p
        · rw [hrec] at hrun
          exact absurd hrun (by simp)
        · rw [hrec] at hrun
          dsimp only at hrun
          simp only [Option.some.injEq, Prod.mk.injEq, Option.map_some]
            at hrun
          obtain ⟨hres, hhs2⟩ := hrun
          obtain ⟨hrest, hqnone⟩ := ih
            ⟨some ⟨q.legs.set (q.currentLegIndex + 1) fresh.leg,
               q.currentLegIndex + 1, q.startTheta,
               tA elements q.currentTheta leg.transferTime⟩,
             hs.executingWaypoints, hs.previewLegs⟩
            ⟨q.legs.set (q.currentLegIndex + 1) fresh.leg,
             q.currentLegIndex + 1, q.startTheta,
             tA elements q.currentTheta leg.transferTime⟩
            extras.tail states.tail p.1 p.2
            rfl (by simp; omega)
            (by simpa using hew)
            (fun e he => hex e (List.mem_of_mem_tail he)) (by rw [hrec])
            hm
          subst hres
          refine ⟨?_, by rw [← hhs2, hqnone]⟩
          rw [hrest]
          have : m + 1 - 1 = (m - 1) + 1 := by omega
          rw [this, List.replicate_succ]
          rfl
    · have hm : m = 0 := by omega
      subst hm
      simp only [if_neg hn] at hrun
      rw [driveQueue] at hrun
      simp only [Option.some.injEq, Prod.mk.injEq, Option.map_some]
        at hrun
      obtain ⟨hres, hhs2⟩ := hrun
      subst hres
      exact ⟨rfl, by rw [← hhs2]⟩

/-- C2: starting a queue over a non-empty waypoint list and driving one
`checkLegTransition` per leg, each with elapsed time at least that leg's
transfer time and the snapshot intact, yields exactly `N - 1` continue
results followed by one complete result, after which the queue is
absent. -/
theorem startExecution_driveQueue_completes (sqrt : K → K) (prop : PropFn K)
    (tA : AnomalyFn K) (elements : OrbitalElements K) (hs0 : HookState K)
    (currentState : RelativeState K) (waypoints : List (Waypoint K))
    (elapsedTime : K) (ret : RelativeState K) (hs1 : HookState K)
    (extras : List K) (states : List (RelativeState K))
    (results : List (Option TransitionType)) (hs2 : HookState K)
    (hne : waypoints ≠ [])
    (hstart : startExecution sqrt prop tA elements hs0 currentState
      waypoints elapsedTime = some (some ret, hs1))
    (hex : ∀ e ∈ extras, 0 ≤ e)
    (hrun : driveQueue sqrt prop tA elements waypoints.length hs1 extras
      states = some (results, hs2)) :
    results = List.replicate (waypoints.length - 1)
        (some TransitionType.cont) ++ [some TransitionType.complete] ∧
      hs2.queue = none := by
  rcases waypoints with _ | ⟨w0, ws⟩
  · exact absurd rfl hne
  · rw [startExecution] at hstart
    rcases hfresh : calculateLegManeuver sqrt prop tA elements currentState
        w0.position (tA elements 0 elapsedTime) with _ | freshFirst
    · rw [hfresh] at hstart
      exact absurd hstart (by simp)
    · rw [hfresh] at hstart
      rcases hall : calculateManeuverQueue sqrt prop tA elements
          currentState (w0 :: ws) (tA elements 0 elapsedTime) with
        _ | allLegs
      · rw [hall] at hstart
        exact absurd hstart (by simp)
      · rw [hall] at hstart
        simp only [Option.some.injEq, Prod.mk.injEq] at hstart
        obtain ⟨-, hhs1⟩ := hstart
        have hlegs : allLegs.length = (w0 :: ws).length :=
          calculateManeuverQueue_length sqrt prop tA elements _ _ _ _ hall
        refine driveQueue_spec sqrt prop tA elements (w0 :: ws).length hs1
          ⟨allLegs.set 0 freshFirst.leg, 0, tA elements 0 elapsedTime,
            tA elements 0 elapsedTime⟩ extras states results hs2
          (by rw [← hhs1]) ?_ ?_ hex hrun (by simp)
        · simp [List.length_set, hlegs]
        · rw [← hhs1]
          simp [List.length_set, hlegs]

/-- witness for C2: a concrete two-waypoint run — queue start succeeds,
and two transition calls (each at exactly the active leg's transfer time)
produce one continue result and one complete result, leaving no queue. -/
theorem startExecution_driveQueue_completes_witness :
    ([some TransitionType.cont, some TransitionType.complete] =
        List.replicate
          (([⟨"w1", ⟨30, 0, 0⟩⟩, ⟨"w2", ⟨60, 0, 0⟩⟩] : List (Waypoint ℚ)).length - 1)
          (some TransitionType.cont) ++ [some TransitionType.complete]) ∧
      (⟨none, [], []⟩ : HookState ℚ).queue = none :=
  startExecution_driveQueue_completes (fun q => if q = 900 then 30 else 0)
    simpleProp simpleAnomaly ⟨0, 0, 0⟩ ⟨none, [], []⟩ ⟨⟨0, 0, 0⟩, ⟨0, 0, 0⟩⟩
    [⟨"w1", ⟨30, 0, 0⟩⟩, ⟨"w2", ⟨60, 0, 0⟩⟩] 0 ⟨⟨0, 0, 0⟩, ⟨1 / 2, 0, 0⟩⟩
    ⟨some ⟨[⟨⟨30, 0, 0⟩, 60, ⟨1 / 2, 0, 0⟩, ⟨-(1 / 2), 0, 0⟩⟩,
        ⟨⟨60, 0, 0⟩, 60, ⟨1 / 2, 0, 0⟩, ⟨-(1 / 2), 0, 0⟩⟩], 0, 0, 0⟩,
     [⟨"w1", ⟨30, 0, 0⟩⟩, ⟨"w2", ⟨60, 0, 0⟩⟩], []⟩
    [0, 0] [⟨⟨30, 0, 0⟩, ⟨1 / 2, 0, 0⟩⟩, ⟨⟨60, 0, 0⟩, ⟨1 / 2, 0, 0⟩⟩]
    [some TransitionType.cont, some TransitionType.complete] ⟨none, [], []⟩
    (by simp)
    (by
      norm_num [startExecution, calculateManeuverQueue, calculateLegManeuver,
        calculateTransferTime, distance, calculateRendezvousBurn,
        getSTMComponents, invert3x3, det3x3, multiplyMatrixVector,
        subtractVectors, applyBurn, stationaryState, simpleProp,
        simpleAnomaly, MATRIX_SINGULARITY_TOLERANCE, DEFAULT_APPROACH_RATE,
        MIN_TRANSFER_TIME, vector3_eq_iff, List.set])
    (by norm_num)
    (by
      norm_num [driveQueue, checkLegTransition, calculateLegManeuver,
        calculateTransferTime, distance, calculateRendezvousBurn,
        getSTMComponents, invert3x3, det3x3, multiplyMatrixVector,
        subtractVectors, applyBurn, stationaryState, simpleProp,
        simpleAnomaly, MATRIX_SINGULARITY_TOLERANCE, DEFAULT_APPROACH_RATE,
        MIN_TRANSFER_TIME, vector3_eq_iff, List.set])

-- Forced Motion Circumnavigation from src/utils/fmc.ts.

/-- source `calculateFMCState`: circular relative motion around the chief
in the radial / in-track plane.  Degenerates to a stationary hold at the
target when the target's planar radius is below the stationary threshold;
otherwise the phase starts at `atan2(i, r)` and advances at the mean
motion, with the cross-track offset held fixed.  The transcendental
functions (`Math.sqrt`, `Math.cos`, `Math.sin`, `Math.atan2`) are explicit
parameters; the source's `FMCState` result record has the same shape as
`RelativeState`. -/
def calculateFMCState (sqrt cos sin : K → K) (atan2 : K → K → K)
    (targetPosition : Vector3 K) (elapsedTimeSinceFMC meanMotion : K) :
    RelativeState K :=
  let r := targetPosition.x
  let i := targetPosition.y
  let c := targetPosition.z
  let bigR := sqrt (r * r + i * i)
  if bigR < FMC_STATIONARY_THRESHOLD then
    ⟨targetPosition, ⟨0, 0, 0⟩⟩
  else
    let alpha := atan2 i r
    let theta := meanMotion * elapsedTimeSinceFMC + alpha
    ⟨⟨bigR * cos theta, bigR * sin theta, c⟩,
     ⟨-bigR * meanMotion * sin theta, bigR * meanMotion * cos theta, 0⟩⟩

/-- C8: with the target at the origin, the circumnavigation state is the
stationary hold — position `(0, 0, 0)` and zero velocity — for every
elapsed time (any trig stand-ins, since the degenerate branch never calls
them). -/
theorem calculateFMCState_degenerate (cos sin : ℝ → ℝ) (atan2 : ℝ → ℝ → ℝ)
    (elapsedTimeSinceFMC meanMotion : ℝ) :
    calculateFMCState Real.sqrt cos sin atan2 ⟨0, 0, 0⟩ elapsedTimeSinceFMC
      meanMotion = ⟨⟨0, 0, 0⟩, ⟨0, 0, 0⟩⟩ := by
  rw [calculateFMCState]
  norm_num [FMC_STATIONARY_THRESHOLD, Real.sqrt_zero]

/-- C10: above the stationary threshold, the circumnavigation state stays
on the circle of radius `R = sqrt(r² + i²)` centred on the chief in the
radial / in-track plane, coincides with the target position at elapsed
time zero (so the circle passes through the target), keeps the cross-track
position fixed at the target's, and has zero cross-track velocity. -/
theorem calculateFMCState_on_circle (r i c t n : ℝ)
    (hR : FMC_STATIONARY_THRESHOLD ≤ Real.sqrt (r * r + i * i)) :
    Real.sqrt
        ((calculateFMCState Real.sqrt Real.cos Real.sin
              (fun y x => Complex.arg ⟨x, y⟩) ⟨r, i, c⟩ t n).position.x *
            (calculateFMCState Real.sqrt Real.cos Real.sin
              (fun y x => Complex.arg ⟨x, y⟩) ⟨r, i, c⟩ t n).position.x +
          (calculateFMCState Real.sqrt Real.cos Real.sin
              (fun y x => Complex.arg ⟨x, y⟩) ⟨r, i, c⟩ t n).position.y *
            (calculateFMCState Real.sqrt Real.cos Real.sin
              (fun y x => Complex.arg ⟨x, y⟩) ⟨r, i, c⟩ t n).position.y) =
        Real.sqrt (r * r + i * i) ∧
      (calculateFMCState Real.sqrt Real.cos Real.sin
          (fun y x => Complex.arg ⟨x, y⟩) ⟨r, i, c⟩ 0 n).position =
        ⟨r, i, c⟩ ∧
      (calculateFMCState Real.sqrt Real.cos Real.sin
          (fun y x => Complex.arg ⟨x, y⟩) ⟨r, i, c⟩ t n).position.z = c ∧
      (calculateFMCState Real.sqrt Real.cos Real.sin
          (fun y x => Complex.arg ⟨x, y⟩) ⟨r, i, c⟩ t n).velocity.z = 0 := by
  have hthresh : (0 : ℝ) < FMC_STATIONARY_THRESHOLD := by
    rw [FMC_STATIONARY_THRESHOLD]
    norm_num
  have hRpos : 0 < Real.sqrt (r * r + i * i) := lt_of_lt_of_le hthresh hR
  have hcond : ¬ Real.sqrt (r * r + i * i) < FMC_STATIONARY_THRESHOLD :=
    not_lt.mpr hR
  have hz : (⟨r, i⟩ : ℂ) ≠ 0 := by
    intro h0
    rw [Complex.ext_iff] at h0
    obtain ⟨hr0, hi0⟩ := h0
    simp only [Complex.zero_re, Complex.zero_im] at hr0 hi0
    rw [hr0, hi0] at hRpos
    norm_num [Real.sqrt_zero] at hRpos
  have habs : Complex.abs ⟨r, i⟩ = Real.sqrt (r * r + i * i) := by
    rw [Complex.abs_apply, Complex.normSq_mk]
  refine ⟨?_, ?_, ?_, ?_⟩
  · rw [calculateFMCState]
    simp only [if_neg hcond]
    have hsum :
        Real.sqrt (r * r + i * i) *
              Real.cos (n * t + Complex.arg ⟨r, i⟩) *
            (Real.sqrt (r * r + i * i) *
              Real.cos (n * t + Complex.arg ⟨r, i⟩)) +
          Real.sqrt (r * r + i * i) *
              Real.sin (n * t + Complex.arg ⟨r, i⟩) *
            (Real.sqrt (r * r + i * i) *
              Real.sin (n * t + Complex.arg ⟨r, i⟩)) =
          Real.sqrt (r * r + i * i) ^ 2 := by
      have hpyth := Real.sin_sq_add_cos_sq (n * t + Complex.arg ⟨r, i⟩)
      nlinarith [hpyth]
    rw [hsum, Real.sqrt_sq (Real.sqrt_nonneg _)]
  · rw [calculateFMCState]
    simp only [if_neg hcond, mul_zero, zero_add]
    rw [vector3_eq_iff]
    refine ⟨?_, ?_, rfl⟩
    · rw [Complex.cos_arg hz, habs]
      field_simp
    · rw [Complex.sin_arg, habs]
      field_simp
  · rw [calculateFMCState]
    simp only [if_neg hcond]
  · rw [calculateFMCState]
    simp only [if_neg hcond]

/-- witness for C10: the concrete target `(3, 4, 7)` has planar radius
`5`, above the threshold; the theorem instantiates at elapsed time `2`
and mean motion `5`. -/
theorem calculateFMCState_on_circle_witness :
    (FMC_STATIONARY_THRESHOLD ≤ Real.sqrt ((3 : ℝ) * 3 + 4 * 4)) ∧
      (Real.sqrt
          ((calculateFMCState Real.sqrt Real.cos Real.sin
                (fun y x => Complex.arg ⟨x, y⟩) ⟨3, 4, 7⟩ 2 5).position.x *
              (calculateFMCState Real.sqrt Real.cos Real.sin
                (fun y x => Complex.arg ⟨x, y⟩) ⟨3, 4, 7⟩ 2 5).position.x +
            (calculateFMCState Real.sqrt Real.cos Real.sin
                (fun y x => Complex.arg ⟨x, y⟩) ⟨3, 4, 7⟩ 2 5).position.y *
              (calculateFMCState Real.sqrt Real.cos Real.sin
                (fun y x => Complex.arg ⟨x, y⟩) ⟨3, 4, 7⟩ 2 5).position.y) =
          Real.sqrt ((3 : ℝ) * 3 + 4 * 4) ∧
        (calculateFMCState Real.sqrt Real.cos Real.sin
            (fun y x => Complex.arg ⟨x, y⟩) ⟨3, 4, 7⟩ 0 5).position =
          ⟨3, 4, 7⟩ ∧
        (calculateFMCState Real.sqrt Real.cos Real.sin
            (fun y x => Complex.arg ⟨x, y⟩) ⟨3, 4, 7⟩ 2 5).position.z = 7 ∧
        (calculateFMCState Real.sqrt Real.cos Real.sin
            (fun y x => Complex.arg ⟨x, y⟩) ⟨3, 4, 7⟩ 2 5).velocity.z = 0) := by
  have h5 : Real.sqrt ((3 : ℝ) * 3 + 4 * 4) = 5 := by
    rw [show (3 : ℝ) * 3 + 4 * 4 = 5 ^ 2 by norm_num,
      Real.sqrt_sq (by norm_num : (0 : ℝ) ≤ 5)]
  have hR : FMC_STATIONARY_THRESHOLD ≤ Real.sqrt ((3 : ℝ) * 3 + 4 * 4) := by
    rw [h5, FMC_STATIONARY_THRESHOLD]
    norm_num
  exact ⟨hR, calculateFMCState_on_circle 3 4 7 2 5 hR⟩

-- The waypoint-validation example scenario (spec section 8).

/-- C7 (amended): three waypoints 600 m apart validate cleanly; after
moving waypoint 2 to within 5 m of waypoint 1 the validator reports
exactly two errors — the `overlapping` check from waypoint 1 against
waypoint 2 and the `too_close` check of waypoint 2 against its
predecessor, both referencing index 1 (0-indexed) — because the pair's
separation trips both rules. -/
theorem validateWaypoints_example :
    (validateWaypoints Real.sqrt ⟨0, 0, 0⟩
        [⟨"w1", ⟨0, 600, 0⟩⟩, ⟨"w2", ⟨0, 1200, 0⟩⟩, ⟨"w3", ⟨0, 1800, 0⟩⟩]
        [⟨⟨0, 600, 0⟩, 1200, ⟨0, 0, 0⟩, ⟨0, 0, 0⟩⟩,
         ⟨⟨0, 1200, 0⟩, 1200, ⟨0, 0, 0⟩, ⟨0, 0, 0⟩⟩,
         ⟨⟨0, 1800, 0⟩, 1200, ⟨0, 0, 0⟩, ⟨0, 0, 0⟩⟩] = []) ∧
      (validateWaypoints Real.sqrt ⟨0, 0, 0⟩
          [⟨"w1", ⟨0, 600, 0⟩⟩, ⟨"w2", ⟨0, 605, 0⟩⟩, ⟨"w3", ⟨0, 1800, 0⟩⟩]
          [⟨⟨0, 600, 0⟩, 1200, ⟨0, 0, 0⟩, ⟨0, 0, 0⟩⟩,
           ⟨⟨0, 605, 0⟩, 1200, ⟨0, 0, 0⟩, ⟨0, 0, 0⟩⟩,
           ⟨⟨0, 1800, 0⟩, 1200, ⟨0, 0, 0⟩, ⟨0, 0, 0⟩⟩] =
        [⟨ValidationErrorType.overlapping, 1⟩,
         ⟨ValidationErrorType.too_close, 1⟩]) := by
  constructor <;>
    norm_num [validateWaypoints, validateFrom, overlapChecks, distance,
      legDeltaV, MIN_WAYPOINT_DISTANCE, MAX_LEG_DELTA_V, List.get?,
      Real.sqrt_zero, Real.sqrt_lt' (show (0 : ℝ) < 10 by norm_num)]

/-- C7 counterexample: after moving waypoint 2 to within 5 m of waypoint
1, the validator returns two errors, not exactly one — the close pair
trips both the consecutive-separation rule and the overlap rule. -/
theorem validateWaypoints_example_cex :
    (validateWaypoints Real.sqrt ⟨0, 0, 0⟩
          [⟨"w1", ⟨0, 600, 0⟩⟩, ⟨"w2", ⟨0, 605, 0⟩⟩, ⟨"w3", ⟨0, 1800, 0⟩⟩]
          [⟨⟨0, 600, 0⟩, 1200, ⟨0, 0, 0⟩, ⟨0, 0, 0⟩⟩,
           ⟨⟨0, 605, 0⟩, 1200, ⟨0, 0, 0⟩, ⟨0, 0, 0⟩⟩,
           ⟨⟨0, 1800, 0⟩, 1200, ⟨0, 0, 0⟩, ⟨0, 0, 0⟩⟩]).length = 2 ∧
      (2 : Nat) ≠ 1 := by
  constructor
  · norm_num [validateWaypoints, validateFrom, overlapChecks, distance,
      legDeltaV, MIN_WAYPOINT_DISTANCE, MAX_LEG_DELTA_V, List.get?,
      Real.sqrt_zero, Real.sqrt_lt' (show (0 : ℝ) < 10 by norm_num)]
  · norm_num


end Rpo
